import Mathlib

/-
Verification of the text-editor core and key handlers of datafusion-dft.

The embedding follows src/src/app/editor/mod.rs and src/src/app/handlers/
closely.  A `Line` (an io::Cursor<String> used as a mutable string) is
modelled as `List Char`; `cursor_column : u16` and `current_row : u16` are
modelled as `Nat` (the one place where u16 arithmetic can underflow,
`backspace`, is modelled explicitly as a panic).  Operations that can panic
in Rust (out-of-bounds Vec/String indexing, integer underflow) return
`Option Input`, `none` meaning the Rust code panics.

Display width: the source measures cursor columns with unicode_width, under
which control characters (such as the line terminator) have width 0 and
ordinary ASCII characters have width 1.  `charWidth` reproduces exactly
that for the character set the editor manipulates (wide characters, for
which the source also conflates byte offsets with display columns, are out
of scope of the spec's claims).
-/

namespace DftEditor

/-- Display width of one character, as unicode_width computes it for the
characters relevant here: control characters have width 0, others width 1. -/
def charWidth (c : Char) : Nat :=
  if c.toNat < 32 ∨ c.toNat = 127 then 0 else 1

/-- Display width of a line, `UnicodeWidthStr::width` in the source. -/
def lineWidth (l : List Char) : Nat :=
  (l.map charWidth).sum

/-- `Input` from src/src/app/editor/mod.rs: all lines in the SQL editor and
the cursor location. -/
structure Input where
  lines : List (List Char)
  current_row : Nat
  cursor_column : Nat
deriving DecidableEq

/-- `Input::default()`: empty line vector, cursor at the origin. -/
def Input.default : Input := ⟨[], 0, 0⟩

/-- `String::insert(i, c)`: panics (`none`) when the index is out of range. -/
def insertAt (l : List Char) (i : Nat) (c : Char) : Option (List Char) :=
  if i ≤ l.length then some (l.take i ++ c :: l.drop i) else none

/-- `String::remove(i)`: panics (`none`) when the index is out of range. -/
def removeAt (l : List Char) (i : Nat) : Option (List Char) :=
  if i < l.length then some (l.take i ++ l.drop (i + 1)) else none

/-- `Input::on_last_line`. -/
def Input.on_last_line (s : Input) : Bool :=
  s.current_row == s.lines.length - 1

/-- Insert a line after `current_row`: `push` when on the last line,
`Vec::insert(current_row + 1, line)` otherwise, as in `new_line`. -/
def Input.insert_after_current (s : Input) (lines1 : List (List Char))
    (line : List Char) : List (List Char) :=
  if s.on_last_line then lines1 ++ [line]
  else lines1.take (s.current_row + 1) ++ line :: lines1.drop (s.current_row + 1)

/-- `Input::new_line`, the `\n` case of `append_char`.  The three cases are
keyed on the cursor position exactly as in the source; every branch first
indexes `lines[current_row]` (panic when out of range). -/
def Input.new_line (s : Input) : Option Input :=
  match s.lines[s.current_row]? with
  | none => none
  | some l =>
    if s.cursor_column = 0 then
      -- cursor_is_at_line_beginning: current row becomes a terminator-only
      -- line, its old content is pushed down as a new line
      some ⟨s.insert_after_current (s.lines.set s.current_row ['\n'])
              (if l.isEmpty then [] else l), s.current_row + 1, 0⟩
    else if s.cursor_column = l.length then
      -- cursor_is_at_line_end: append terminator, insert empty line after
      some ⟨s.insert_after_current (s.lines.set s.current_row (l ++ ['\n'])) [],
            s.current_row + 1, 0⟩
    else if s.cursor_column < l.length then
      -- cursor_is_in_line_middle: drain the tail into a new line
      some ⟨s.insert_after_current
              (s.lines.set s.current_row (l.take s.cursor_column ++ ['\n']))
              (l.drop s.cursor_column), s.current_row + 1, 0⟩
    else
      -- "Unhandled": no state change
      some s

/-- `Input::append_char` when `lines` is already non-empty. -/
def Input.append_char_core (s : Input) (c : Char) : Option Input :=
  if c = '\n' then s.new_line
  else
    match s.lines[s.current_row]? with
    | none => none
    | some l =>
      if c = '\t' then
        -- push_str("    "): four spaces appended at the END of the line
        some ⟨s.lines.set s.current_row (l ++ [' ', ' ', ' ', ' ']),
              s.current_row, s.cursor_column + 4⟩
      else
        match insertAt l s.cursor_column c with
        | none => none
        | some l2 =>
          some ⟨s.lines.set s.current_row l2, s.current_row, s.cursor_column + 1⟩

/-- The `lines.is_empty()` pre-step of `append_char`: push one default line. -/
def Input.ensure_nonempty (s : Input) : Input :=
  if s.lines.isEmpty then ⟨[[]], s.current_row, s.cursor_column⟩ else s

/-- `Input::append_char`. -/
def Input.append_char (s : Input) (c : Char) : Option Input :=
  s.ensure_nonempty.append_char_core c

/-- `Input::pop`: removes and returns the last character of the current
line's text.  Panics (`none`) when `current_row` is out of range. -/
def Input.pop (s : Input) : Option (Input × Option Char) :=
  match s.lines[s.current_row]? with
  | none => none
  | some l =>
    some (⟨s.lines.set s.current_row l.dropLast, s.current_row, s.cursor_column⟩,
          l.getLast?)

/-- `Input::up_row`. -/
def Input.up_row (s : Input) : Option Input :=
  if s.current_row > 0 then
    match s.lines[s.current_row]? with
    | none => none
    | some l =>
      match s.lines[s.current_row - 1]? with
      | none => none
      | some prev =>
        if l.isEmpty then
          some ⟨s.lines, s.current_row - 1, lineWidth prev⟩
        else
          some ⟨s.lines, s.current_row - 1, min s.cursor_column (lineWidth prev)⟩
  else some s

/-- `Input::down_row`. -/
def Input.down_row (s : Input) : Option Input :=
  if s.lines.isEmpty then some s
  else if s.current_row + 1 < s.lines.length then
    match s.lines[s.current_row + 1]? with
    | none => none
    | some next =>
      some ⟨s.lines, s.current_row + 1, min s.cursor_column (lineWidth next)⟩
  else some s

/-- `Input::next_char`. -/
def Input.next_char (s : Input) : Option Input :=
  if s.lines.isEmpty then some s
  else
    match s.lines[s.current_row]? with
    | none => none
    | some l =>
      if s.cursor_column = lineWidth l then some s
      else if s.cursor_column + 1 = lineWidth l ∧ s.current_row ≠ s.lines.length - 1 then
        some ⟨s.lines, s.current_row + 1, 0⟩
      else
        some ⟨s.lines, s.current_row, s.cursor_column + 1⟩

/-- `Input::previous_char`. -/
def Input.previous_char (s : Input) : Option Input :=
  if s.cursor_column = 0 ∧ s.current_row > 0 then
    match s.lines[s.current_row - 1]? with
    | none => none
    | some prev =>
      some ⟨s.lines, s.current_row - 1, lineWidth prev⟩
  else if s.cursor_column > 0 then
    some ⟨s.lines, s.current_row, s.cursor_column - 1⟩
  else some s

/-- `Input::backspace`.  On a non-empty current line with `cursor_column ==
0` the source computes `cursor_column - 1` on a `u16` and passes it to
`String::remove`: a panic (underflow in debug builds, out-of-bounds remove
in release builds), modelled as `none`. -/
def Input.backspace (s : Input) : Option Input :=
  match s.lines[s.current_row]? with
  | none => none
  | some l =>
    if l.isEmpty then
      match s.up_row with
      | none => none
      | some s1 =>
        match s1.pop with
        | none => none
        | some p => some p.1
    else if s.cursor_column = 0 then none
    else
      match removeAt l (s.cursor_column - 1) with
      | none => none
      | some l2 =>
        some ⟨s.lines.set s.current_row l2, s.current_row, s.cursor_column - 1⟩

/-- `Input::clear`. -/
def Input.clear (_s : Input) : Option Input :=
  some ⟨[], 0, 0⟩

/-- `Input::tab`. -/
def Input.tab (s : Input) : Option Input :=
  s.append_char '\t'

/-- `Input::combine_lines`: concatenation of all lines' raw text. -/
def Input.combine_lines (s : Input) : List Char :=
  s.lines.flatten

/-- `MAX_EDITOR_LINES` from the source. -/
def MAX_EDITOR_LINES : Nat := 17

/-- `Input::combine_visible_lines`.  `start` is 0 when `current_row <
MAX_EDITOR_LINES`, else `current_row - MAX_EDITOR_LINES`; when `start` is 0
the source joins ALL lines; otherwise it takes the slice
`lines[start..start + MAX_EDITOR_LINES + 1]`, which panics (`none`) when the
slice end exceeds the number of lines. -/
def Input.combine_visible_lines (s : Input) : Option (List Char) :=
  let start := if s.current_row < MAX_EDITOR_LINES then 0
               else s.current_row - MAX_EDITOR_LINES
  if start = 0 then some s.lines.flatten
  else if start + MAX_EDITOR_LINES + 1 ≤ s.lines.length then
    some (((s.lines.drop start).take (MAX_EDITOR_LINES + 1)).flatten)
  else none

/-- The editing operations of the claims, as a syntax of commands. -/
inductive EditOp where
  | append (c : Char)
  | pop
  | backspace
  | up_row
  | down_row
  | next_char
  | previous_char
  | tab
  | clear
  | new_line
deriving DecidableEq

/-- One editing step; `none` when the underlying Rust operation panics. -/
def applyOp (s : Input) : EditOp → Option Input
  | .append c => s.append_char c
  | .pop => s.pop.map Prod.fst
  | .backspace => s.backspace
  | .up_row => s.up_row
  | .down_row => s.down_row
  | .next_char => s.next_char
  | .previous_char => s.previous_char
  | .tab => s.tab
  | .clear => s.clear
  | .new_line => s.new_line

/-- A sequence of editing steps; stops at the first panic. -/
def applyOps (s : Input) : List EditOp → Option Input
  | [] => some s
  | op :: rest =>
    match applyOp s op with
    | none => none
    | some s2 => applyOps s2 rest

/-- The invariant claimed by the spec: the row is in range and the cursor
column does not exceed the display width of the current line. -/
def specInv (s : Input) : Prop :=
  s.lines = [] ∨
    (s.current_row < s.lines.length ∧
      s.cursor_column ≤ lineWidth (s.lines.getD s.current_row []))

instance (s : Input) : Decidable (specInv s) := by
  unfold specInv; infer_instance

/-- The row-bound part of the invariant, strengthened so that it is
inductive: an empty buffer always has the cursor at the origin row. -/
def strongInv (s : Input) : Prop :=
  (s.lines = [] ∧ s.current_row = 0) ∨ s.current_row < s.lines.length

instance (s : Input) : Decidable (strongInv s) := by
  unfold strongInv; infer_instance

/-- Strip a trailing carriage return, as `BufRead::lines` does on each line
that ended with a terminator. -/
def stripCR (l : List Char) : List Char :=
  if l.getLast? = some '\x0d' then l.dropLast else l

/-- Worker for `splitLines`: `acc` holds the current chunk reversed. -/
def splitLinesAux : List Char → List Char → List (List Char)
  | acc, [] => if acc.isEmpty then [] else [acc.reverse]
  | acc, c :: rest =>
    if c = '\n' then stripCR acc.reverse :: splitLinesAux [] rest
    else splitLinesAux (c :: acc) rest

/-- `BufRead::lines` on a document: split on the terminator, drop it and a
preceding carriage return; a final chunk at end of input (no terminator) is
kept as written; no empty line is produced after a final terminator. -/
def splitLines (doc : List Char) : List (List Char) :=
  splitLinesAux [] doc

/-- `str::replace('\t', "    ")`: every tab becomes four spaces. -/
def replaceTab : List Char → List Char
  | [] => []
  | c :: rest =>
    (if c = '\t' then [' ', ' ', ' ', ' '] else [c]) ++ replaceTab rest

/-- Modelled from the spec: `QueryResultsMeta` (defined outside src/, in the
datafusion context module) summarises one completed query for the history:
the submitted text, whether it succeeded, a row count and the elapsed
time. -/
structure QueryResultsMeta where
  query : List Char
  succeeded : Bool
  rows : Nat
  elapsed : Nat
deriving DecidableEq

/-- `Editor` from src/src/app/editor/mod.rs. -/
structure Editor where
  input : Input
  sql_terminated : Bool
  history : List QueryResultsMeta
deriving DecidableEq

/-- `Editor::load_file`, with the file's content (the lines produced by the
reader) given as the document text: each source line gets a terminator
appended, then tabs are replaced by four spaces, and the line vector of the
input is replaced wholesale.  `current_row` and `cursor_column` are not
written by the source. -/
def Editor.load_file (e : Editor) (doc : List Char) : Editor :=
  ⟨⟨(splitLines doc).map (fun l => replaceTab (l ++ ['\n'])),
    e.input.current_row, e.input.cursor_column⟩,
   e.sql_terminated, e.history⟩

/-- Spec-side reading of the round-trip claim: the original document's
lines, each with tabs expanded to four spaces and a terminator appended,
concatenated back together. -/
def specLoadedDocument (doc : List Char) : List Char :=
  ((splitLines doc).map (fun l => replaceTab l ++ ['\n'])).flatten

/-- `InputMode` from the app core (outside src/); modelled from the spec:
Normal mode and Editing mode. -/
inductive InputMode where
  | Normal
  | Editing
deriving DecidableEq

/-- The key events from src/src/events (outside src/); modelled from the
spec's closed input-event set, restricted to the variants the edit-mode
handler distinguishes (`Other` stands for every remaining variant). -/
inductive Key where
  | Enter
  | Char (c : Char)
  | Left
  | Right
  | Up
  | Down
  | Tab
  | Backspace
  | Esc
  | Other
deriving DecidableEq

/-- The slice of `App` that `edit_mode_handler` reads and writes. -/
structure App where
  input_mode : InputMode
  editor : Editor
deriving DecidableEq

/-- `edit_mode_handler` from src/src/app/handlers/edit.rs.  `none` when the
invoked editor operation panics (the `sql_terminated` write for `;` happens
after `append_char` returns, so a panic there leaves no state). -/
def edit_mode_handler (app : App) (key : Key) : Option App :=
  let upd : Option Input → Option App := fun r =>
    r.map (fun i => ⟨app.input_mode, ⟨i, app.editor.sql_terminated, app.editor.history⟩⟩)
  match key with
  | .Enter => upd (app.editor.input.append_char '\n')
  | .Char c =>
    if c = ';' then
      (app.editor.input.append_char c).map
        (fun i => ⟨app.input_mode, ⟨i, true, app.editor.history⟩⟩)
    else upd (app.editor.input.append_char c)
  | .Left => upd app.editor.input.previous_char
  | .Right => upd app.editor.input.next_char
  | .Up => upd app.editor.input.up_row
  | .Down => upd app.editor.input.down_row
  | .Tab => upd app.editor.input.tab
  | .Backspace => upd app.editor.input.backspace
  | .Esc => some ⟨InputMode.Normal, app.editor⟩
  | .Other => some app

/-- Frame conditions of `edit_mode_handler` (claim C10), as a predicate on
the state before, the state after, and the key. -/
def handlerFrame (app app2 : App) (key : Key) : Prop :=
  (key = Key.Esc → app2 = ⟨InputMode.Normal, app.editor⟩) ∧
  (key ≠ Key.Esc → app2.input_mode = app.input_mode) ∧
  app2.editor.history = app.editor.history ∧
  (key = Key.Char ';' → app2.editor.sql_terminated = true) ∧
  (key ≠ Key.Char ';' → app2.editor.sql_terminated = app.editor.sql_terminated)

/-- Outcome value of one query submission (the `Query` type lives outside
src/; its fields are modelled from the spec: submitted text, optional result
rows, optional error, optional row count, elapsed time), parametrised by the
external engine's row and error types. -/
structure Query (Rows Err : Type) where
  sql : List Char
  results : Option Rows
  error : Option Err
  num_rows : Option Nat
  elapsed : Nat
deriving DecidableEq

/-- The spawned task body of `explore_tab_normal_mode_handler` (Enter), as a
function of the external engine's two fallible steps (`ctx.sql`, then
`DataFrame::collect`): the list of `QueryResult` messages it sends. -/
def normal_mode_submit (Df Rows Err : Type) (sql : List Char)
    (sqlRes : Except Err Df) (collect : Df → Except Err Rows)
    (numRows : Rows → Nat) (elapsed : Nat) : List (Query Rows Err) :=
  match sqlRes with
  | Except.ok df =>
    match collect df with
    | Except.ok res => [⟨sql, some res, none, some (numRows res), elapsed⟩]
    | Except.error e => [⟨sql, none, some e, none, elapsed⟩]
  | Except.error e => [⟨sql, none, some e, none, elapsed⟩]

/-- The spawned task body of `explore_tab_editable_handler` (Ctrl+Enter):
the `if let Ok` chain sends a message only when both engine steps succeed;
on failure it only logs, sending nothing. -/
def editable_submit (Df Rows Err : Type) (sql : List Char)
    (sqlRes : Except Err Df) (collect : Df → Except Err Rows)
    (elapsed : Nat) : List (Query Rows Err) :=
  match sqlRes with
  | Except.ok df =>
    match collect df with
    | Except.ok res => [⟨sql, some res, none, none, elapsed⟩]
    | Except.error _ => []
  | Except.error _ => []

/-! Helper lemmas shared by several claims. -/

theorem getElem?_some_lt {α : Type} {l : List α} {n : Nat} {a : α}
    (h : l[n]? = some a) : n < l.length := by
  by_contra hn
  rw [List.getElem?_eq_none (Nat.le_of_not_lt hn)] at h
  exact Option.noConfusion h

theorem lineWidth_append (a b : List Char) :
    lineWidth (a ++ b) = lineWidth a + lineWidth b := by
  simp [lineWidth]

theorem lineWidth_dropLast_of_newline {l : List Char}
    (h : l.getLast? = some '\n') : lineWidth l = lineWidth l.dropLast := by
  have h2 : l.dropLast ++ ['\n'] = l := List.dropLast_append_getLast? _ h
  calc lineWidth l = lineWidth (l.dropLast ++ ['\n']) := by rw [h2]
    _ = lineWidth l.dropLast + lineWidth ['\n'] := lineWidth_append _ _
    _ = lineWidth l.dropLast := by
          have : lineWidth ['\n'] = 0 := by decide
          omega

theorem replaceTab_append (a b : List Char) :
    replaceTab (a ++ b) = replaceTab a ++ replaceTab b := by
  induction a with
  | nil => rfl
  | cons c rest ih => simp [replaceTab, ih]

theorem isEmpty_false_of_getElem? {α : Type} {l : List α} {n : Nat} {a : α}
    (h : l[n]? = some a) : l.isEmpty = false := by
  cases l with
  | nil => simp at h
  | cons x t => rfl

/-- C2 counterexample: with the line `ab` and the cursor at column 0,
`append_char('\t')` appends the four spaces at the END of the line (giving
`ab    ` with the cursor at 4), not at the cursor position, which would give
`    ab`. -/
theorem tab_not_at_cursor_counterexample :
    Input.append_char ⟨[['a', 'b']], 0, 0⟩ '\t'
      = some ⟨[['a', 'b', ' ', ' ', ' ', ' ']], 0, 4⟩ ∧
    [['a', 'b', ' ', ' ', ' ', ' ']] ≠ [[' ', ' ', ' ', ' ', 'a', 'b']] := by
  decide

/-- C2 (amended): for every buffer state whose current row exists,
`append_char('\t')` appends four literal spaces at the end of the current
line and advances `cursor_column` by exactly 4. -/
theorem tab_appends_spaces_at_line_end (s : Input) (l : List Char)
    (h : s.lines[s.current_row]? = some l) :
    s.append_char '\t'
      = some ⟨s.lines.set s.current_row (l ++ [' ', ' ', ' ', ' ']),
              s.current_row, s.cursor_column + 4⟩ := by
  have hne : s.lines.isEmpty = false := isEmpty_false_of_getElem? h
  simp [Input.append_char, Input.ensure_nonempty, Input.append_char_core, hne, h]

/-- Witness for C2 (amended) at the line `ab`, cursor column 1. -/
theorem tab_appends_spaces_at_line_end_witness :
    Input.append_char ⟨[['a', 'b']], 0, 1⟩ '\t'
      = some ⟨[['a', 'b', ' ', ' ', ' ', ' ']], 0, 5⟩ :=
  tab_appends_spaces_at_line_end ⟨[['a', 'b']], 0, 1⟩ ['a', 'b'] rfl

/-- C3: the code, not the claim, is at fault.  `backspace()` with
`current_row == 0` and `cursor_column == 0` on a non-empty first line
panics (`u16` underflow / out-of-range `String::remove`) instead of being a
no-op, and `backspace()` on an empty buffer panics on the out-of-range
`lines[0]` index. -/
theorem backspace_at_origin_panics :
    Input.backspace ⟨[['a', 'b']], 0, 0⟩ = none ∧
    Input.backspace ⟨[], 0, 0⟩ = none := by
  decide

/-- C4 counterexample: buffer `["abc\n", ""]`, cursor on the empty line 1 at
column 0.  `up_row()` sets `cursor_column` to the full width 3 of the new
current line, not to `min(previous_column, width) = min 0 3 = 0`. -/
theorem up_row_from_empty_line_not_min :
    Input.up_row ⟨[['a', 'b', 'c', '\n'], []], 1, 0⟩
      = some ⟨[['a', 'b', 'c', '\n'], []], 0, 3⟩ ∧
    min 0 (lineWidth ['a', 'b', 'c', '\n']) ≠ 3 := by
  decide

/-- C4 (amended): `up_row` applies the sticky-column rule
`min(previous_column, display_width(new_line))` only when the current line
is non-empty; leaving an EMPTY current line it sets the cursor to the full
display width of the new current line.  `down_row` always applies the
sticky-column rule.  Moving (down) into an empty line yields column 0. -/
theorem row_moves_cursor_clamp :
    (∀ (s : Input) (l prev : List Char), s.current_row > 0 →
        s.lines[s.current_row]? = some l →
        s.lines[s.current_row - 1]? = some prev → l ≠ [] →
        s.up_row = some ⟨s.lines, s.current_row - 1,
                          min s.cursor_column (lineWidth prev)⟩) ∧
    (∀ (s : Input) (prev : List Char), s.current_row > 0 →
        s.lines[s.current_row]? = some [] →
        s.lines[s.current_row - 1]? = some prev →
        s.up_row = some ⟨s.lines, s.current_row - 1, lineWidth prev⟩) ∧
    (∀ (s : Input) (next : List Char), s.current_row + 1 < s.lines.length →
        s.lines[s.current_row + 1]? = some next →
        s.down_row = some ⟨s.lines, s.current_row + 1,
                            min s.cursor_column (lineWidth next)⟩) := by
  refine ⟨?_, ?_, ?_⟩
  · intro s l prev hr hl hprev hne
    have hle : l.isEmpty = false := by
      cases l with
      | nil => exact absurd rfl hne
      | cons x t => rfl
    simp [Input.up_row, hr, hl, hprev, hle]
  · intro s prev hr hl hprev
    simp [Input.up_row, hr, hl, hprev]
  · intro s next hlt hnext
    have hne : s.lines.isEmpty = false := by
      cases hc : s.lines with
      | nil => rw [hc] at hlt; simp at hlt
      | cons x t => rfl
    simp [Input.down_row, hne, hlt, hnext]

/-- Witness for C4 (amended): all three clauses at concrete two-line
buffers. -/
theorem row_moves_cursor_clamp_witness :
    Input.up_row ⟨[['a', 'b'], ['c']], 1, 1⟩
      = some ⟨[['a', 'b'], ['c']], 0, min 1 (lineWidth ['a', 'b'])⟩ ∧
    Input.up_row ⟨[['a', 'b'], []], 1, 0⟩
      = some ⟨[['a', 'b'], []], 0, lineWidth ['a', 'b']⟩ ∧
    Input.down_row ⟨[['a', 'b'], ['c']], 0, 2⟩
      = some ⟨[['a', 'b'], ['c']], 1, min 2 (lineWidth ['c'])⟩ :=
  ⟨row_moves_cursor_clamp.1 ⟨[['a', 'b'], ['c']], 1, 1⟩ ['c'] ['a', 'b']
      (by decide) rfl rfl (by decide),
   row_moves_cursor_clamp.2.1 ⟨[['a', 'b'], []], 1, 0⟩ ['a', 'b']
      (by decide) rfl rfl,
   row_moves_cursor_clamp.2.2 ⟨[['a', 'b'], ['c']], 0, 2⟩ ['c']
      (by decide) rfl⟩

/-- C5 counterexample: buffer `["abc\n", ""]`, cursor on the empty line 1.
`backspace()` moves the cursor to the end of the previous line and removes
the terminator, but the empty line REMAINS as a separate entry: the buffer
still has 2 lines, so the lines are merged only in the combined text. -/
theorem backspace_merge_keeps_empty_line :
    Input.backspace ⟨[['a', 'b', 'c', '\n'], []], 1, 0⟩
      = some ⟨[['a', 'b', 'c'], []], 0, 3⟩ ∧
    ([['a', 'b', 'c'], []] : List (List Char)).length = 2 := by
  decide

/-- C5 (amended): with the cursor on an empty line whose previous line is
non-empty and terminator-ended, `backspace()` moves the cursor to the end
of the previous line and removes that line's trailing terminator, but the
empty line remains as a separate (still empty) entry of `lines`: the line
count is unchanged, the merge happens only in the combined text. -/
theorem backspace_merge_spec (s : Input) (l : List Char)
    (hr : s.current_row > 0)
    (hcur : s.lines[s.current_row]? = some [])
    (hprev : s.lines[s.current_row - 1]? = some l)
    (hterm : l.getLast? = some '\n') :
    s.backspace = some ⟨s.lines.set (s.current_row - 1) l.dropLast,
                        s.current_row - 1, lineWidth l.dropLast⟩ ∧
    (s.lines.set (s.current_row - 1) l.dropLast).length = s.lines.length ∧
    (s.lines.set (s.current_row - 1) l.dropLast)[s.current_row]? = some [] := by
  refine ⟨?_, by simp, ?_⟩
  · rw [← lineWidth_dropLast_of_newline hterm]
    simp [Input.backspace, Input.up_row, Input.pop, hcur, hprev, hr]
  · rw [List.getElem?_set_ne (by omega)]
    exact hcur

/-- Witness for C5 (amended) at the buffer `["x\n", ""]`, cursor on line 1. -/
theorem backspace_merge_spec_witness :
    Input.backspace ⟨[['x', '\n'], []], 1, 0⟩ = some ⟨[['x'], []], 0, 1⟩ ∧
    ([['x'], []] : List (List Char)).length = 2 ∧
    ([['x'], []] : List (List Char))[1]? = some [] :=
  backspace_merge_spec ⟨[['x', '\n'], []], 1, 0⟩ ['x', '\n']
    (by decide) rfl rfl rfl


/-- C6: round trip.  Loading a document and then combining all lines
reproduces the original document's lines with every tab replaced by four
spaces and a terminator appended to every line, regardless of whether the
source line had one. -/
theorem load_file_combine_lines_round_trip (e : Editor) (doc : List Char) :
    ((e.load_file doc).input).combine_lines = specLoadedDocument doc := by
  unfold Editor.load_file Input.combine_lines specLoadedDocument
  have key : ∀ L : List (List Char),
      (L.map (fun l => replaceTab (l ++ ['\n']))).flatten
        = (L.map (fun l => replaceTab l ++ ['\n'])).flatten := by
    intro L
    induction L with
    | nil => rfl
    | cons a t ih =>
      have ha : replaceTab (a ++ ['\n']) = replaceTab a ++ ['\n'] := by
        rw [replaceTab_append]; rfl
      simp only [List.map_cons, List.flatten_cons, ih, ha]
  exact key (splitLines doc)

/-- C7 counterexample: a 19-line document with the cursor on line 0 does
not fit in the 17-line viewport, so the claim's window would be the first
`MAX_EDITOR_LINES + 1 = 18` lines; the code instead returns the whole
19-line document whenever the window start is 0. -/
theorem combine_visible_lines_whole_doc_counterexample :
    Input.combine_visible_lines ⟨List.replicate 19 ['a'], 0, 0⟩
      = some ((List.replicate 19 ['a']).flatten) ∧
    (List.replicate 19 ['a']).flatten
      ≠ (((List.replicate 19 ['a']).take (MAX_EDITOR_LINES + 1)).flatten) := by
  decide

/-- C7 (amended): the viewport height is fixed at `MAX_EDITOR_LINES = 17`.
When `current_row ≤ 17` the whole document is returned (even when it does
not fit in the viewport); when `current_row > 17` (and the row is in range)
the returned window is the 18 lines `lines[current_row - 17 ..= current_row]`,
i.e. it starts at `current_row - 17 = max(0, current_row - 17)` and has
exactly `17 + 1` lines.  The 20-line, cursor-on-19 scenario starts at line 2
with 18 lines. -/
theorem combine_visible_lines_spec :
    (∀ s : Input, s.current_row ≤ MAX_EDITOR_LINES →
        s.combine_visible_lines = some s.lines.flatten) ∧
    (∀ s : Input, MAX_EDITOR_LINES < s.current_row →
        s.current_row < s.lines.length →
        s.combine_visible_lines
          = some (((s.lines.drop (s.current_row - MAX_EDITOR_LINES)).take
              (MAX_EDITOR_LINES + 1)).flatten) ∧
        ((s.lines.drop (s.current_row - MAX_EDITOR_LINES)).take
            (MAX_EDITOR_LINES + 1)).length = MAX_EDITOR_LINES + 1) := by
  constructor
  · intro s h
    unfold MAX_EDITOR_LINES at h
    unfold Input.combine_visible_lines MAX_EDITOR_LINES
    rcases Nat.lt_or_ge s.current_row 17 with h2 | h2
    · simp [h2]
    · have h3 : s.current_row = 17 := le_antisymm h h2
      simp [h3]
  · intro s h1 h2
    unfold MAX_EDITOR_LINES at h1 ⊢
    have hnotlt : ¬ (s.current_row < 17) := by omega
    have hne : ¬ (s.current_row - 17 = 0) := by omega
    have hend : s.current_row - 17 + 17 + 1 ≤ s.lines.length := by omega
    constructor
    · unfold Input.combine_visible_lines MAX_EDITOR_LINES
      simp [hnotlt, hne, hend]
    · rw [List.length_take, List.length_drop]
      omega

/-- Witness for C7 (amended): the spec's scenario, a 20-line document with
the cursor on line 19: the window starts at line 2 and has 18 lines. -/
theorem combine_visible_lines_spec_witness :
    Input.combine_visible_lines ⟨List.replicate 20 ['a'], 19, 0⟩
      = some ((((List.replicate 20 ['a']).drop 2).take 18).flatten) ∧
    (((List.replicate 20 ['a']).drop 2).take 18).length = 18 :=
  combine_visible_lines_spec.2 ⟨List.replicate 20 ['a'], 19, 0⟩
    (by decide) (by decide)

/-- C8: the code, not the claim, is at fault.  The Editable-mode
(Ctrl+Enter) submission task sends NO outcome message when `ctx.sql` (or
the collect step) fails — the `if let Ok` chain only logs the error, as its
own TODO comment admits — while the Normal-mode (Enter) task for the same
failing engine outcome sends exactly one failure message. -/
theorem editable_submit_failure_sends_no_message :
    editable_submit Unit Unit Unit []
      (Except.error ()) (fun _ => Except.ok ()) 0 = [] ∧
    (normal_mode_submit Unit Unit Unit []
      (Except.error ()) (fun _ => Except.ok ()) (fun _ => 0) 0).length = 1 :=
  ⟨rfl, rfl⟩

/-- C9 counterexample: loading a one-line document into an editor whose
cursor column is 3 leaves `cursor_column = 3`: the buffer is replaced but
the cursor is NOT reset to row 0, column 0. -/
theorem load_file_does_not_reset_cursor :
    (Editor.load_file ⟨⟨[['a', 'b', 'c']], 0, 3⟩, false, []⟩ ['x']).input
      = ⟨[['x', '\n']], 0, 3⟩ ∧ (3 : Nat) ≠ 0 := by
  decide

/-- C9 (amended): a successful load wholesale-replaces the line vector
(content split into lines, tabs expanded to four spaces, terminator
appended to each line) but leaves `current_row` and `cursor_column` — and
the rest of the editor state — unchanged rather than resetting them. -/
theorem load_file_replaces_lines_preserves_cursor (e : Editor) (doc : List Char) :
    (e.load_file doc).input.lines
        = (splitLines doc).map (fun l => replaceTab (l ++ ['\n'])) ∧
    (e.load_file doc).input.current_row = e.input.current_row ∧
    (e.load_file doc).input.cursor_column = e.input.cursor_column ∧
    (e.load_file doc).sql_terminated = e.sql_terminated ∧
    (e.load_file doc).history = e.history :=
  ⟨rfl, rfl, rfl, rfl, rfl⟩


/-- In every non-Esc, non-`;` arm the handler only swaps in the new input:
mode, termination flag and history are untouched. -/
theorem upd_frame (app app2 : App) (r : Option Input)
    (h : r.map (fun i =>
        (⟨app.input_mode,
          ⟨i, app.editor.sql_terminated, app.editor.history⟩⟩ : App)) = some app2) :
    app2.input_mode = app.input_mode ∧
    app2.editor.sql_terminated = app.editor.sql_terminated ∧
    app2.editor.history = app.editor.history := by
  cases r with
  | none => exact Option.noConfusion h
  | some i =>
    have h3 : (⟨app.input_mode,
        ⟨i, app.editor.sql_terminated, app.editor.history⟩⟩ : App) = app2 :=
      Option.some.inj h
    subst h3
    exact ⟨rfl, rfl, rfl⟩

/-- C10: frame condition of `edit_mode_handler`.  Whenever the handler
completes, only Esc changes `input_mode` (setting it to Normal and touching
nothing else), only the character `;` sets `sql_terminated`, no key touches
the history, every non-Esc key leaves `input_mode` unchanged and every key
other than `;` leaves `sql_terminated` unchanged. -/
theorem edit_mode_handler_frame (app app2 : App) (key : Key)
    (h : edit_mode_handler app key = some app2) :
    handlerFrame app app2 key := by
  unfold handlerFrame
  cases key with
  | Enter =>
    obtain ⟨h1, h2, h3⟩ := upd_frame app app2 _ h
    exact ⟨by simp, fun _ => h1, h3, by simp, fun _ => h2⟩
  | Char c =>
    have hE : edit_mode_handler app (Key.Char c)
        = if c = ';' then
            (app.editor.input.append_char c).map (fun i =>
              (⟨app.input_mode, ⟨i, true, app.editor.history⟩⟩ : App))
          else
            (app.editor.input.append_char c).map (fun i =>
              (⟨app.input_mode,
                ⟨i, app.editor.sql_terminated, app.editor.history⟩⟩ : App)) := rfl
    by_cases hc : c = ';'
    · rw [hE, if_pos hc] at h
      cases hm : app.editor.input.append_char c with
      | none => rw [hm] at h; exact Option.noConfusion h
      | some i =>
        rw [hm] at h
        have h3 : (⟨app.input_mode, ⟨i, true, app.editor.history⟩⟩ : App) = app2 :=
          Option.some.inj h
        subst h3
        refine ⟨by simp, fun _ => rfl, rfl, fun _ => rfl, ?_⟩
        intro hk
        exact absurd (by rw [hc]) hk
    · rw [hE, if_neg hc] at h
      obtain ⟨h1, h2, h3⟩ := upd_frame app app2 _ h
      refine ⟨by simp, fun _ => h1, h3, ?_, fun _ => h2⟩
      intro hk
      cases hk
      exact absurd rfl hc
  | Left =>
    obtain ⟨h1, h2, h3⟩ := upd_frame app app2 _ h
    exact ⟨by simp, fun _ => h1, h3, by simp, fun _ => h2⟩
  | Right =>
    obtain ⟨h1, h2, h3⟩ := upd_frame app app2 _ h
    exact ⟨by simp, fun _ => h1, h3, by simp, fun _ => h2⟩
  | Up =>
    obtain ⟨h1, h2, h3⟩ := upd_frame app app2 _ h
    exact ⟨by simp, fun _ => h1, h3, by simp, fun _ => h2⟩
  | Down =>
    obtain ⟨h1, h2, h3⟩ := upd_frame app app2 _ h
    exact ⟨by simp, fun _ => h1, h3, by simp, fun _ => h2⟩
  | Tab =>
    obtain ⟨h1, h2, h3⟩ := upd_frame app app2 _ h
    exact ⟨by simp, fun _ => h1, h3, by simp, fun _ => h2⟩
  | Backspace =>
    obtain ⟨h1, h2, h3⟩ := upd_frame app app2 _ h
    exact ⟨by simp, fun _ => h1, h3, by simp, fun _ => h2⟩
  | Esc =>
    have h3 : (⟨InputMode.Normal, app.editor⟩ : App) = app2 := Option.some.inj h
    subst h3
    exact ⟨fun _ => rfl, fun hk => absurd rfl hk, rfl, by simp, fun _ => rfl⟩
  | Other =>
    have h3 : app = app2 := Option.some.inj h
    subst h3
    exact ⟨by simp, fun _ => rfl, rfl, by simp, fun _ => rfl⟩

/-- Witness for C10 at the initial app state and the Left arrow key. -/
theorem edit_mode_handler_frame_witness :
    handlerFrame ⟨InputMode.Editing, ⟨⟨[], 0, 0⟩, false, []⟩⟩
      ⟨InputMode.Editing, ⟨⟨[], 0, 0⟩, false, []⟩⟩ Key.Left :=
  edit_mode_handler_frame ⟨InputMode.Editing, ⟨⟨[], 0, 0⟩, false, []⟩⟩
    ⟨InputMode.Editing, ⟨⟨[], 0, 0⟩, false, []⟩⟩ Key.Left (by decide)


/-! Preservation of the strengthened row invariant by every editing
operation, leading to the amended C1. -/

theorem isEmpty_true_nil {α : Type} {l : List α} (h : l.isEmpty = true) :
    l = [] := by
  cases l with
  | nil => rfl
  | cons a t => simp at h

theorem ensure_nonempty_strongInv {s : Input} (h : strongInv s) :
    strongInv s.ensure_nonempty := by
  unfold Input.ensure_nonempty
  by_cases hl : s.lines.isEmpty
  · have hnil : s.lines = [] := isEmpty_true_nil hl
    have hrow : s.current_row = 0 := by
      rcases h with ⟨-, h2⟩ | h2
      · exact h2
      · rw [hnil] at h2; simp at h2
    rw [if_pos hl]
    exact Or.inr (by simp [hrow])
  · rw [if_neg hl]
    exact h

theorem insert_after_current_length (s : Input) (lines1 : List (List Char))
    (line : List Char) (hr : s.current_row < lines1.length) :
    (s.insert_after_current lines1 line).length = lines1.length + 1 := by
  unfold Input.insert_after_current
  split
  · simp
  · simp only [List.length_append, List.length_take, List.length_cons,
      List.length_drop]
    omega

theorem new_line_strongInv {s s2 : Input} (h : strongInv s)
    (he : s.new_line = some s2) : strongInv s2 := by
  unfold Input.new_line at he
  split at he
  · exact Option.noConfusion he
  · rename_i l heq
    have hlt : s.current_row < s.lines.length := getElem?_some_lt heq
    split at he
    · obtain rfl := Option.some.inj he
      refine Or.inr ?_
      rw [insert_after_current_length s _ _ (by simpa using hlt)]
      simpa using Nat.succ_lt_succ hlt
    · split at he
      · obtain rfl := Option.some.inj he
        refine Or.inr ?_
        rw [insert_after_current_length s _ _ (by simpa using hlt)]
        simpa using Nat.succ_lt_succ hlt
      · split at he
        · obtain rfl := Option.some.inj he
          refine Or.inr ?_
          rw [insert_after_current_length s _ _ (by simpa using hlt)]
          simpa using Nat.succ_lt_succ hlt
        · obtain rfl := Option.some.inj he
          exact h

theorem append_char_core_strongInv {s s2 : Input} {c : Char} (h : strongInv s)
    (he : s.append_char_core c = some s2) : strongInv s2 := by
  unfold Input.append_char_core at he
  split at he
  · exact new_line_strongInv h he
  · split at he
    · exact Option.noConfusion he
    · rename_i l heq
      have hlt : s.current_row < s.lines.length := getElem?_some_lt heq
      split at he
      · obtain rfl := Option.some.inj he
        exact Or.inr (by simpa using hlt)
      · split at he
        · exact Option.noConfusion he
        · obtain rfl := Option.some.inj he
          exact Or.inr (by simpa using hlt)

theorem append_char_strongInv {s s2 : Input} {c : Char} (h : strongInv s)
    (he : s.append_char c = some s2) : strongInv s2 :=
  append_char_core_strongInv (ensure_nonempty_strongInv h) he

theorem pop_strongInv {s : Input} {p : Input × Option Char} (_h : strongInv s)
    (he : s.pop = some p) : strongInv p.1 := by
  unfold Input.pop at he
  split at he
  · exact Option.noConfusion he
  · rename_i l heq
    obtain rfl := Option.some.inj he
    exact Or.inr (by simpa using getElem?_some_lt heq)

theorem up_row_strongInv {s s2 : Input} (h : strongInv s)
    (he : s.up_row = some s2) : strongInv s2 := by
  unfold Input.up_row at he
  split at he
  · split at he
    · exact Option.noConfusion he
    · split at he
      · exact Option.noConfusion he
      · rename_i l heq prev heq2
        split at he
        · obtain rfl := Option.some.inj he
          exact Or.inr (getElem?_some_lt heq2)
        · obtain rfl := Option.some.inj he
          exact Or.inr (getElem?_some_lt heq2)
  · obtain rfl := Option.some.inj he
    exact h

theorem down_row_strongInv {s s2 : Input} (h : strongInv s)
    (he : s.down_row = some s2) : strongInv s2 := by
  unfold Input.down_row at he
  split at he
  · obtain rfl := Option.some.inj he
    exact h
  · split at he
    · split at he
      · exact Option.noConfusion he
      · rename_i hlt next heq
        obtain rfl := Option.some.inj he
        exact Or.inr (getElem?_some_lt heq)
    · obtain rfl := Option.some.inj he
      exact h

theorem next_char_strongInv {s s2 : Input} (h : strongInv s)
    (he : s.next_char = some s2) : strongInv s2 := by
  unfold Input.next_char at he
  split at he
  · obtain rfl := Option.some.inj he
    exact h
  · split at he
    · exact Option.noConfusion he
    · rename_i l heq
      have hlt : s.current_row < s.lines.length := getElem?_some_lt heq
      split at he
      · obtain rfl := Option.some.inj he
        exact h
      · split at he
        · rename_i hcond
          obtain rfl := Option.some.inj he
          refine Or.inr ?_
          show s.current_row + 1 < s.lines.length
          have h2 := hcond.2
          omega
        · obtain rfl := Option.some.inj he
          exact Or.inr hlt

theorem previous_char_strongInv {s s2 : Input} (h : strongInv s)
    (he : s.previous_char = some s2) : strongInv s2 := by
  unfold Input.previous_char at he
  split at he
  · split at he
    · exact Option.noConfusion he
    · rename_i prev heq
      obtain rfl := Option.some.inj he
      exact Or.inr (getElem?_some_lt heq)
  · split at he
    · obtain rfl := Option.some.inj he
      exact h
    · obtain rfl := Option.some.inj he
      exact h

theorem backspace_strongInv {s s2 : Input} (h : strongInv s)
    (he : s.backspace = some s2) : strongInv s2 := by
  unfold Input.backspace at he
  split at he
  · exact Option.noConfusion he
  · rename_i l heq
    split at he
    · split at he
      · exact Option.noConfusion he
      · rename_i s1 hup
        split at he
        · exact Option.noConfusion he
        · rename_i p hpop
          obtain rfl := Option.some.inj he
          exact pop_strongInv (up_row_strongInv h hup) hpop
    · split at he
      · exact Option.noConfusion he
      · split at he
        · exact Option.noConfusion he
        · obtain rfl := Option.some.inj he
          exact Or.inr (by simpa using getElem?_some_lt heq)

theorem applyOp_strongInv {s s2 : Input} {op : EditOp} (h : strongInv s)
    (he : applyOp s op = some s2) : strongInv s2 := by
  cases op with
  | append c => exact append_char_strongInv h he
  | pop =>
    cases hm : s.pop with
    | none => rw [applyOp, hm] at he; exact Option.noConfusion he
    | some p =>
      rw [applyOp, hm] at he
      obtain rfl := Option.some.inj he
      exact pop_strongInv h hm
  | backspace => exact backspace_strongInv h he
  | up_row => exact up_row_strongInv h he
  | down_row => exact down_row_strongInv h he
  | next_char => exact next_char_strongInv h he
  | previous_char => exact previous_char_strongInv h he
  | tab =>
    have he2 : s.append_char '\t' = some s2 := he
    exact append_char_strongInv h he2
  | clear =>
    obtain rfl := Option.some.inj he
    exact Or.inl ⟨rfl, rfl⟩
  | new_line => exact new_line_strongInv h he

theorem applyOps_strongInv {ops : List EditOp} {s s2 : Input} (h : strongInv s)
    (he : applyOps s ops = some s2) : strongInv s2 := by
  induction ops generalizing s with
  | nil => obtain rfl := Option.some.inj he; exact h
  | cons op rest ih =>
    unfold applyOps at he
    split at he
    · exact Option.noConfusion he
    · rename_i s1 h1
      exact ih (applyOp_strongInv h h1) he

/-- C1 counterexample: starting from the empty buffer, the keystroke
sequence `a`, Enter, Backspace, Down, Backspace leaves the state
`lines = ["", ""], current_row = 0, cursor_column = 1`, where
`cursor_column = 1` exceeds `display_width(lines[0]) = 0`: the claimed
invariant does not hold after every operation. -/
theorem editOps_break_cursor_invariant :
    applyOps Input.default
      [.append 'a', .append '\n', .backspace, .down_row, .backspace]
      = some ⟨[[], []], 0, 1⟩ ∧
    ¬ specInv ⟨[[], []], 0, 1⟩ := by
  decide

/-- C1 (amended): for every sequence of editing operations applied to a
freshly constructed buffer, after each operation that completes without
panicking, either `lines` is empty or `0 ≤ current_row < lines.length`.
The second half of the claimed invariant,
`cursor_column ≤ display_width(lines[current_row])`, can be violated (see
the counterexample), so it is dropped. -/
theorem editOps_preserve_row_invariant (ops : List EditOp) (s2 : Input)
    (h : applyOps Input.default ops = some s2) :
    s2.lines = [] ∨ s2.current_row < s2.lines.length := by
  have h0 : strongInv Input.default := Or.inl ⟨rfl, rfl⟩
  rcases applyOps_strongInv h0 h with ⟨h1, -⟩ | h2
  · exact Or.inl h1
  · exact Or.inr h2

/-- Witness for C1 (amended) on the single-operation sequence `append 'a'`. -/
theorem editOps_preserve_row_invariant_witness :
    ([['a']] : List (List Char)) = [] ∨ 0 < ([['a']] : List (List Char)).length :=
  editOps_preserve_row_invariant [.append 'a'] ⟨[['a']], 0, 1⟩ (by decide)

end DftEditor
